import Mathlib

/-!
Shallow embedding of the HTTP execution core of the dispatch-tickets SDK
(`src/utils/http.ts` and `src/errors.ts`): error taxonomy, response
classification, retry policy, backoff delays, header construction,
per-attempt execution, and the retry-loop orchestrator.

Conventions of the embedding:
* JS strings are `String`; a JS `string | null | undefined` is `Option String`.
* A JS number obtained from `parseInt` is `Option Int` where `none` models
  `NaN`; a field typed `number | undefined` that holds a parse result is
  `Option (Option Int)` (outer `none` = `undefined`, inner `none` = `NaN`).
* JS truthiness on strings (`"" falsy`) and numbers (`0` and `NaN` falsy) is
  made explicit at every use site, mirroring the source conditions.
* Header maps are total functions `String → Option String` (`none` models a
  missing header, as `Headers.get` returning `null`).
* Delay arithmetic is carried out over `ℚ`, the exact idealization of the
  source's numeric expressions; the `Math.random()` draw is an explicit
  parameter `u`.
-/

/-- JS-style `parseInt(s, 10)`: skip leading whitespace, read an optional
sign and then the longest run of decimal digits; `none` models `NaN`
(no digits found). -/
def parseIntJS (s : String) : Option Int :=
  let cs := s.toList.dropWhile (fun c => c = ' ' ∨ c = '\t' ∨ c = '\n' ∨ c = '\r')
  let signAndRest : Int × List Char :=
    match cs with
    | '-' :: t => (-1, t)
    | '+' :: t => (1, t)
    | t => (1, t)
  let digits := signAndRest.2.takeWhile Char.isDigit
  if digits.isEmpty then none
  else some (signAndRest.1 * (digits.foldl (fun a c => a * 10 + (c.toNat - '0'.toNat)) 0 : Nat))

/-- JS truthiness for `string | null | undefined`: both absence and the empty
string are falsy.  Returns the string when truthy. -/
def strTruthy : Option String → Option String
  | some s => if s = "" then none else some s
  | none => none

/-- Does `needle` occur as a contiguous run inside `hay`? -/
def listContainsRun (needle : List Char) : List Char → Bool
  | [] => needle.isEmpty
  | c :: rest => needle.isPrefixOf (c :: rest) || listContainsRun needle rest

/-- Model of `String.includes` of JS, used for the `content-type` check. -/
def strIncludes (s sub : String) : Bool :=
  listContainsRun sub.toList s.toList

/-- Rate limit information extracted from response headers
(`RateLimitInfo` of `http.ts`).  Fields are `parseInt` results, so `none`
models a `NaN` field. -/
structure RateLimitInfo where
  limit : Option Int
  remaining : Option Int
  reset : Option Int
deriving Repr, DecidableEq

/-- One entry of a validation `errors` array (`{ field, message }`). -/
structure FieldError where
  field : String
  message : String
deriving Repr, DecidableEq

/-- The `ApiErrorResponse` shape parsed from a JSON error body. -/
structure ApiErrorResponse where
  message : Option String
  error : Option String
  errors : Option (List FieldError)
  code : Option String
deriving Repr, DecidableEq

/-- The empty object `{}` used when an error body is absent or unparseable. -/
def emptyPayload : ApiErrorResponse := ⟨none, none, none, none⟩

/-- The closed error taxonomy of `errors.ts`.  `base` is a direct
`DispatchTicketsError` (the generic API error); the other constructors are
its subclasses.  `jsError` models a plain JS `Error` that is none of the
SDK classes (it carries `name` and `message`). -/
inductive SdkError where
  | base (message : String) (code : String) (statusCode : Option Nat)
      (details : Option ApiErrorResponse) (requestId : Option String)
  | authentication (message : String) (requestId : Option String)
  | rateLimit (message : String) (retryAfter : Option (Option Int))
      (requestId : Option String) (info : Option RateLimitInfo)
  | validation (message : String) (errors : Option (List FieldError))
      (requestId : Option String)
  | notFound (message : String) (resourceType : Option String)
      (resourceId : Option String) (requestId : Option String)
  | conflict (message : String) (requestId : Option String)
  | server (message : String) (statusCode : Nat) (requestId : Option String)
  | timeout (message : String)
  | network (message : String)
  | jsError (name : String) (message : String)
deriving Repr, DecidableEq

/-- The resolved retry configuration (`Required<RetryConfig>` after the
constructor merges user values with defaults). -/
structure RetryConfig where
  maxRetries : Nat
  retryableStatuses : List Nat
  retryOnNetworkError : Bool
  retryOnTimeout : Bool
  initialDelayMs : ℚ
  maxDelayMs : ℚ
  backoffMultiplier : ℚ
  jitter : ℚ

/-- The defaults merged in by the `HttpClient` constructor. -/
def defaultRetryConfig (maxRetries : Nat) : RetryConfig :=
  { maxRetries := maxRetries
    retryableStatuses := [429, 500, 502, 503, 504]
    retryOnNetworkError := true
    retryOnTimeout := true
    initialDelayMs := 1000
    maxDelayMs := 30000
    backoffMultiplier := 2
    jitter := 1/4 }

namespace HttpClient

/-- Model of `HttpClient.shouldRetry`, a pure predicate of the classified error.
The `statusCode ≠ 0` guard mirrors the JS truthiness test
`error instanceof ServerError && error.statusCode`. -/
def shouldRetry (cfg : RetryConfig) (e : SdkError) : Bool :=
  match e with
  | .authentication .. => false
  | .validation .. => false
  | .notFound .. => false
  | .conflict .. => false
  | .rateLimit .. => true
  | .server _ statusCode _ =>
    if statusCode ≠ 0 then cfg.retryableStatuses.contains statusCode else false
  | .network _ => cfg.retryOnNetworkError
  | .timeout _ => cfg.retryOnTimeout
  | _ => false

/-- JS truthiness of the `retryAfter` field
(`error.retryAfter` with `undefined`, `NaN` and `0` falsy):
returns the integer when truthy. -/
def truthyRetryAfter : Option (Option Int) → Option Int
  | some (some n) => if n ≠ 0 then some n else none
  | _ => none

/-- The clamped exponential base of `calculateDelay`:
`min(initialDelayMs * backoffMultiplier ^ attempt, maxDelayMs)`. -/
def backoffBase (cfg : RetryConfig) (attempt : Nat) : ℚ :=
  min (cfg.initialDelayMs * cfg.backoffMultiplier ^ attempt) cfg.maxDelayMs

/-- The exponential-backoff branch of `calculateDelay`: the clamped base
plus the additive jitter term, with `u` the `Math.random()` draw. -/
def backoffDelay (cfg : RetryConfig) (attempt : Nat) (u : ℚ) : ℚ :=
  backoffBase cfg attempt + backoffBase cfg attempt * cfg.jitter * u

/-- Model of `HttpClient.calculateDelay`.  A `RateLimitError` whose `retryAfter` is
truthy short-circuits to `retryAfter * 1000`; everything else (including a
rate-limit error with absent, zero or `NaN` `retryAfter`) takes the
backoff branch. -/
def calculateDelay (cfg : RetryConfig) (e : SdkError) (attempt : Nat) (u : ℚ) : ℚ :=
  match e with
  | .rateLimit _ ra _ _ =>
    match truthyRetryAfter ra with
    | some n => (n : ℚ) * 1000
    | none => backoffDelay cfg attempt u
  | _ => backoffDelay cfg attempt u

/-- Model of `HttpClient.buildHeaders`: defaults, spread of the caller's custom
headers over them (custom wins on key collision), then the
`X-Idempotency-Key` assignment guarded by JS truthiness of the key. -/
def buildHeaders (apiKey : String) (customHeaders : String → Option String)
    (idempotencyKey : Option String) : String → Option String :=
  fun k =>
    let base : Option String :=
      if k = "Authorization" then some ("Bearer " ++ apiKey)
      else if k = "Content-Type" then some "application/json"
      else if k = "Accept" then some "application/json"
      else none
    let merged : Option String :=
      match customHeaders k with
      | some v => some v
      | none => base
    if (strTruthy idempotencyKey).isSome ∧ k = "X-Idempotency-Key" then
      idempotencyKey
    else merged

end HttpClient

/-- Model of a fetch `Response` as consumed by the classifier: status,
status text, headers, and the parse result of the body as JSON
(`none` when the body is absent or not valid JSON). -/
structure HttpResponse where
  status : Nat
  statusText : String
  headers : String → Option String
  body : Option ApiErrorResponse

namespace HttpClient

/-- The `content-type` check `contentType?.includes('application/json')`
(optional chaining: a missing header is falsy). -/
def isJsonResponse (r : HttpResponse) : Bool :=
  match r.headers "content-type" with
  | some ct => strIncludes ct "application/json"
  | none => false

/-- The expression `errorData.message || errorData.error || response.statusText`
(JS `||` with empty-string and `undefined` falsy). -/
def classifierMessage (r : HttpResponse) (errorData : ApiErrorResponse) : String :=
  match strTruthy errorData.message with
  | some s => s
  | none =>
    match strTruthy errorData.error with
    | some s => s
    | none => r.statusText

/-- The error payload used by the non-2xx branch of `handleResponse`:
the parsed JSON body when the response is JSON and parseable, otherwise the
empty object `{}` (JSON parse errors on error bodies are swallowed). -/
def errorDataOf (r : HttpResponse) : ApiErrorResponse :=
  if isJsonResponse r then r.body.getD emptyPayload else emptyPayload

/-- The message attached to a classified error:
`errorData.message || errorData.error || response.statusText`. -/
def classifiedMessage (r : HttpResponse) : String :=
  classifierMessage r (errorDataOf r)

/-- Model of `HttpClient.extractRateLimitInfo`: the guard is JS truthiness of the
three raw header strings (`limit && remaining && reset`); the fields are
the `parseInt` results, which are *not* checked for `NaN`. -/
def extractRateLimitInfo (headers : String → Option String) : Option RateLimitInfo :=
  match strTruthy (headers "x-ratelimit-limit"),
      strTruthy (headers "x-ratelimit-remaining"),
      strTruthy (headers "x-ratelimit-reset") with
  | some l, some r, some s => some ⟨parseIntJS l, parseIntJS r, parseIntJS s⟩
  | _, _, _ => none

/-- Model of `HttpClient.handleResponse`.  `response.ok` is `200 ≤ status ≤ 299`.
On a 2xx, a 204 or a non-JSON body yields no value (`undefined`); a JSON
body that fails to parse makes `response.json()` reject, modelled by the
`jsError` outcome.  On a non-2xx, the body (when JSON and parseable) is the
error payload and the status is switched on exactly as in the source.
The session-state writes (`_lastRequestId`, `_lastRateLimit`) and the
`onResponse` hook call carry no return value and are modelled in the
orchestrator, not here. -/
def handleResponse (r : HttpResponse) : Except SdkError (Option ApiErrorResponse) :=
  let isJson := isJsonResponse r
  let requestId := r.headers "x-request-id"
  let rateLimitInfo := extractRateLimitInfo r.headers
  if 200 ≤ r.status ∧ r.status ≤ 299 then
    if r.status = 204 ∨ isJson = false then .ok none
    else
      match r.body with
      | some p => .ok (some p)
      | none => .error (.jsError "SyntaxError" "Unexpected end of JSON input")
  else
    let errorData := errorDataOf r
    let message := classifiedMessage r
    if r.status = 401 then .error (.authentication message requestId)
    else if r.status = 400 ∨ r.status = 422 then
      .error (.validation message errorData.errors requestId)
    else if r.status = 404 then .error (.notFound message none none requestId)
    else if r.status = 409 then .error (.conflict message requestId)
    else if r.status = 429 then
      .error (.rateLimit message ((strTruthy (r.headers "retry-after")).map parseIntJS)
        requestId rateLimitInfo)
    else if 500 ≤ r.status then .error (.server message r.status requestId)
    else .error (.base message "api_error" (some r.status) (some errorData) requestId)

/-- How one transport attempt resolves, seen from `executeRequest`'s
`try`/`catch`: the fetch promise resolves with a response, rejects with an
`AbortError` (the flag records whether `userSignal.aborted` held when the
rejection was handled), rejects with some other `Error`, or rejects with a
non-`Error` value. -/
inductive FetchOutcome where
  | success (r : HttpResponse)
  | abortError (userAborted : Bool)
  | failure (name : String) (message : String)
  | thrownNonError

/-- Model of `HttpClient.executeRequest`'s outcome classification.  If the caller's
signal was already aborted before the fetch, the source throws a plain
`Error('Request aborted')`, which its own `catch` turns into
`NetworkError('Request aborted')` (the name `Error` is not `AbortError`).
An `AbortError` is a user abort when `userSignal.aborted` holds, otherwise
the internal deadline fired and it is a timeout carrying the configured
timeout value. -/
def executeRequest (timeoutMs : Nat) (userAlreadyAborted : Bool)
    (outcome : FetchOutcome) : Except SdkError HttpResponse :=
  if userAlreadyAborted then
    .error (.network "Request aborted")
  else
    match outcome with
    | .success r => .ok r
    | .abortError userAborted =>
      if userAborted then .error (.network "Request aborted by user")
      else .error (.timeout ("Request timed out after " ++ toString timeoutMs ++ "ms"))
    | .failure _ message => .error (.network message)
    | .thrownNonError => .error (.network "Unknown network error")

/-- How one iteration of the `request` loop behaves, abstracting the body of
its `try` block: either the `onRequest` hook throws (the transport is never
reached on that attempt), or the hook returns and the composite
`executeRequest`-then-`handleResponse` step produces a value or throws a
classified error. -/
inductive AttemptBehavior (T : Type) where
  | hookThrows (e : SdkError)
  | transport (r : Except SdkError T)

/-- Hook invocations observed during one `request` call, indexed by the
zero-based attempt number. -/
inductive HookEvent where
  | onRequest (attempt : Nat)
  | onResponse (attempt : Nat)
  | onError (attempt : Nat)
  | onRetry (attempt : Nat)
deriving Repr, DecidableEq

/-- Terminal state of the `request` loop.  `value`/`thrown` arise inside the
loop body; `afterLoop last` marks that control fell through to the trailing
`throw lastError || new NetworkError('Request failed after retries')`
statement; `fuelOut` marks exhaustion of the fuel of the embedding (never
reached with adequate fuel). -/
inductive RunOutcome (T : Type) where
  | value (t : T)
  | thrown (e : SdkError)
  | afterLoop (last : Option SdkError)
  | fuelOut

/-- Result of one `request` call: terminal outcome, number of transport
invocations, and the hook-invocation trace in order. -/
structure RunResult (T : Type) where
  outcome : RunOutcome T
  calls : Nat
  events : List HookEvent

/-- The `while (attempt <= maxRetries)` loop of `HttpClient.request`, fuelled.
Each iteration: check the loop condition; fire `onRequest` (which may
throw); run the transport; on success fire `onResponse` (inside
`handleResponse`) and return; on a caught error fire `onError`, and retry
(firing `onRetry`, sleeping, incrementing `attempt`) exactly when
`attempt < maxRetries && shouldRetry(error)`, otherwise rethrow.  `sr` is
`shouldRetry` applied to the resolved config. -/
def requestGo {T : Type} (maxRetries : Nat) (sr : SdkError → Bool)
    (beh : Nat → AttemptBehavior T) :
    Nat → Nat → Option SdkError → RunResult T
  | 0, _, _ => ⟨.fuelOut, 0, []⟩
  | fuel + 1, attempt, last =>
    if attempt ≤ maxRetries then
      match beh attempt with
      | .hookThrows e =>
        if attempt < maxRetries ∧ sr e = true then
          let r := requestGo maxRetries sr beh fuel (attempt + 1) (some e)
          ⟨r.outcome, r.calls,
            .onRequest attempt :: .onError attempt :: .onRetry attempt :: r.events⟩
        else ⟨.thrown e, 0, [.onRequest attempt, .onError attempt]⟩
      | .transport (.ok t) =>
        ⟨.value t, 1, [.onRequest attempt, .onResponse attempt]⟩
      | .transport (.error e) =>
        if attempt < maxRetries ∧ sr e = true then
          let r := requestGo maxRetries sr beh fuel (attempt + 1) (some e)
          ⟨r.outcome, r.calls + 1,
            .onRequest attempt :: .onError attempt :: .onRetry attempt :: r.events⟩
        else ⟨.thrown e, 1, [.onRequest attempt, .onError attempt]⟩
    else ⟨.afterLoop last, 0, []⟩

/-- Model of `HttpClient.request`: the loop entered with `attempt = 0` and no last
error, with enough fuel for every reachable iteration plus one further
condition check. -/
def request {T : Type} (maxRetries : Nat) (sr : SdkError → Bool)
    (beh : Nat → AttemptBehavior T) : RunResult T :=
  requestGo maxRetries sr beh (maxRetries + 2) 0 none

/-- An always-transport behavior, for runs in which no hook throws:
attempt `i` observes outcome `tr i`. -/
def transportBeh {T : Type} (tr : Nat → Except SdkError T) :
    Nat → AttemptBehavior T :=
  fun i => .transport (tr i)

/-- Length of the maximal run of retry-eligible failed attempts of `tr`
starting at attempt `start`, looking at most `m` attempts ahead. -/
def leadRetry {T : Type} (sr : SdkError → Bool) (tr : Nat → Except SdkError T) :
    Nat → Nat → Nat
  | _, 0 => 0
  | start, m + 1 =>
    match tr start with
    | .ok _ => 0
    | .error e => if sr e = true then leadRetry sr tr (start + 1) m + 1 else 0

/-- The four error kinds the retry policy never retries
(the "client-caused" set of the spec). -/
def isClientError : SdkError → Bool
  | .authentication .. => true
  | .validation .. => true
  | .notFound .. => true
  | .conflict .. => true
  | _ => false

/-- Does `calculateDelay` take the server-directed branch for this error,
i.e. is it a rate-limit error with a truthy `retryAfter`? -/
def rateLimitDirected : SdkError → Bool
  | .rateLimit _ ra _ _ => (truthyRetryAfter ra).isSome
  | _ => false

end HttpClient

/-- Concrete headers for the rate-limit extraction analysis: the limit
header is present but not numeric, the other two parse. -/
def c8Headers : String → Option String := fun k =>
  if k = "x-ratelimit-limit" then some "abc"
  else if k = "x-ratelimit-remaining" then some "5"
  else if k = "x-ratelimit-reset" then some "99"
  else none

/-- Concrete headers in which all three rate-limit headers parse. -/
def c8GoodHeaders : String → Option String := fun k =>
  if k = "x-ratelimit-limit" then some "100"
  else if k = "x-ratelimit-remaining" then some "99"
  else if k = "x-ratelimit-reset" then some "1704067200"
  else none

/-- A retry configuration with jitter disabled
(`{ ...defaults, jitter: 0 }`), as in the spec's own example scenario. -/
def jitterlessConfig : RetryConfig :=
  { defaultRetryConfig 3 with jitter := 0 }

/-- A concrete 404 response carrying a request id. -/
def notFoundResponse : HttpResponse :=
  { status := 404
    statusText := "Not Found"
    headers := fun k => if k = "x-request-id" then some "req_1" else none
    body := none }

/-- A behavior in which the `onRequest` hook throws a `NetworkError`
on every attempt. -/
def hookThrowsNetworkBeh : Nat → HttpClient.AttemptBehavior Unit :=
  fun _ => .hookThrows (.network "hook boom")

/-- A behavior in which the `onRequest` hook throws a plain JS `Error`
on every attempt. -/
def hookThrowsPlainBeh : Nat → HttpClient.AttemptBehavior Unit :=
  fun _ => .hookThrows (.jsError "Error" "hook boom")

/-- A transport that fails every attempt with a 500 `ServerError`. -/
def alwaysServer500 : Nat → Except SdkError Unit :=
  fun _ => .error (.server "boom" 500 none)

/-- Custom headers that override the SDK's Authorization default. -/
def customAuthHeaders : String → Option String := fun k =>
  if k = "Authorization" then some "Bearer custom" else none


/-! ## Theorems -/

/-- C8 (counterexample): with `x-ratelimit-limit: abc` — which does not
parse as an integer — and the other two headers numeric, the code still
produces a `RateLimitInfo` (its `limit` field is `NaN`), so presence of a
record does not require all three headers to parse as integers. -/
theorem c8_counterexample :
    HttpClient.extractRateLimitInfo c8Headers
      = some ⟨none, some 5, some 99⟩ ∧
    parseIntJS "abc" = none := by
  constructor <;> decide

/-- C8 (amended): a `RateLimitInfo` is produced iff all three rate-limit
headers are present with non-empty values (all-or-nothing on header
presence); its fields are then exactly the `parseInt` results of the three
header strings, each possibly `NaN` when the string is not numeric. -/
theorem c8_amended (headers : String → Option String) :
    ((HttpClient.extractRateLimitInfo headers).isSome ↔
      ((strTruthy (headers "x-ratelimit-limit")).isSome ∧
        (strTruthy (headers "x-ratelimit-remaining")).isSome ∧
        (strTruthy (headers "x-ratelimit-reset")).isSome)) ∧
    (∀ l r s,
      strTruthy (headers "x-ratelimit-limit") = some l →
      strTruthy (headers "x-ratelimit-remaining") = some r →
      strTruthy (headers "x-ratelimit-reset") = some s →
      HttpClient.extractRateLimitInfo headers
        = some ⟨parseIntJS l, parseIntJS r, parseIntJS s⟩) := by
  constructor
  · unfold HttpClient.extractRateLimitInfo
    rcases h1 : strTruthy (headers "x-ratelimit-limit") with _ | l <;>
      rcases h2 : strTruthy (headers "x-ratelimit-remaining") with _ | r <;>
      rcases h3 : strTruthy (headers "x-ratelimit-reset") with _ | s <;>
      simp
  · intro l r s h1 h2 h3
    unfold HttpClient.extractRateLimitInfo
    rw [h1, h2, h3]

/-- C8 (witness): the amended theorem applied to concrete headers in which
all three values parse. -/
theorem c8_witness :
    HttpClient.extractRateLimitInfo c8GoodHeaders
      = some ⟨some 100, some 99, some 1704067200⟩ := by
  have h := (c8_amended c8GoodHeaders).2 "100" "99" "1704067200"
    (by decide) (by decide) (by decide)
  rw [h]; decide

/-- C4 (counterexample): a `RateLimitError` carrying `retryAfter = 0`
(reachable from a `retry-after: 0` header) does not get the server-directed
delay 0 × 1000 = 0: zero is falsy in JS, so the code falls through to
exponential backoff, here 1000 ms. -/
theorem c4_counterexample :
    HttpClient.calculateDelay (defaultRetryConfig 3)
        (.rateLimit "Rate limit exceeded" (some (some 0)) none none) 0 0 = 1000 ∧
    ((0 : ℚ) * 1000 = 0) ∧ (1000 : ℚ) ≠ 0 ∧
    parseIntJS "0" = some 0 := by
  refine ⟨?_, by norm_num, by norm_num, by decide⟩
  norm_num [HttpClient.calculateDelay, HttpClient.truthyRetryAfter,
    HttpClient.backoffDelay, HttpClient.backoffBase, defaultRetryConfig]

/-- C4 (amended): for every `RateLimitError` carrying a *nonzero* integer
`retryAfter`, the computed delay is exactly `retryAfter × 1000` ms — the
backoff parameters and the random draw are ignored and no clamp against
`maxDelayMs` is applied; a zero, `NaN`, or absent `retryAfter` falls
through to exponential backoff instead. -/
theorem c4_amended (cfg : RetryConfig) (m : String) (n : Int)
    (rid : Option String) (info : Option RateLimitInfo) (attempt : Nat) (u : ℚ)
    (hn : n ≠ 0) :
    HttpClient.calculateDelay cfg (.rateLimit m (some (some n)) rid info) attempt u
      = (n : ℚ) * 1000 := by
  simp [HttpClient.calculateDelay, HttpClient.truthyRetryAfter, hn]

/-- C4 (witness): `retry-after: 60` yields exactly 60000 ms even though
`maxDelayMs` is 30000 and jitter would apply to a backoff delay. -/
theorem c4_witness :
    HttpClient.calculateDelay (defaultRetryConfig 3)
        (.rateLimit "Rate limit exceeded" (some (some 60)) none none) 2 (1/2)
      = 60000 ∧ (defaultRetryConfig 3).maxDelayMs = 30000 := by
  have h := c4_amended (defaultRetryConfig 3) "Rate limit exceeded" 60 none none 2 (1/2)
    (by decide)
  rw [h]
  norm_num [defaultRetryConfig]

/-- C7 (counterexample): with jitter configured to 0 (a legal setting, used
in the spec's own example scenario) the computed delay equals the backoff
base exactly, so the claimed *strict* bound
`delay < base × (1 + jitter)` fails: here base = 1000 and
base × (1 + 0) = 1000. -/
theorem c7_counterexample :
    HttpClient.calculateDelay jitterlessConfig (.timeout "Request timed out") 0 (1/2)
      = 1000 ∧
    ¬(HttpClient.calculateDelay jitterlessConfig (.timeout "Request timed out") 0 (1/2)
        < 1000 * (1 + jitterlessConfig.jitter)) := by
  constructor <;>
    norm_num [HttpClient.calculateDelay, HttpClient.backoffDelay,
      HttpClient.backoffBase, jitterlessConfig, defaultRetryConfig]

/-- C7 (amended): whenever `calculateDelay` is not server-directed it
computes `base + base·jitter·u` with
`base = min(initialDelayMs · backoffMultiplier ^ attempt, maxDelayMs)`;
for a nonnegative configuration and a draw `u ∈ [0,1)` the delay is never
below the base, and it is *strictly* below `base × (1 + jitter)` whenever
`base · jitter > 0` (when jitter or the base is zero the delay equals the
base, and equals `base × (1 + jitter)` in the jitter-zero case). -/
theorem c7_amended (cfg : RetryConfig) (attempt : Nat) (u : ℚ)
    (h0 : 0 ≤ cfg.initialDelayMs) (h1 : 0 ≤ cfg.backoffMultiplier)
    (h2 : 0 ≤ cfg.maxDelayMs) (h3 : 0 ≤ cfg.jitter)
    (hu0 : 0 ≤ u) (hu1 : u < 1) :
    (∀ e, HttpClient.rateLimitDirected e = false →
      HttpClient.calculateDelay cfg e attempt u = HttpClient.backoffDelay cfg attempt u) ∧
    HttpClient.backoffDelay cfg attempt u
      = HttpClient.backoffBase cfg attempt
        + HttpClient.backoffBase cfg attempt * cfg.jitter * u ∧
    HttpClient.backoffBase cfg attempt ≤ HttpClient.backoffDelay cfg attempt u ∧
    (0 < HttpClient.backoffBase cfg attempt * cfg.jitter →
      HttpClient.backoffDelay cfg attempt u
        < HttpClient.backoffBase cfg attempt * (1 + cfg.jitter)) := by
  have hbase : 0 ≤ HttpClient.backoffBase cfg attempt := by
    have hp : (0 : ℚ) ≤ cfg.initialDelayMs * cfg.backoffMultiplier ^ attempt :=
      mul_nonneg h0 (pow_nonneg h1 attempt)
    exact le_min hp h2
  refine ⟨?_, rfl, ?_, ?_⟩
  · intro e he
    cases e with
    | rateLimit m ra rid info =>
      simp only [HttpClient.rateLimitDirected] at he
      rcases hra : HttpClient.truthyRetryAfter ra with _ | n
      · simp [HttpClient.calculateDelay, hra]
      · rw [hra] at he
        simp at he
    | _ => simp [HttpClient.calculateDelay]
  · have : 0 ≤ HttpClient.backoffBase cfg attempt * cfg.jitter * u :=
      mul_nonneg (mul_nonneg hbase h3) hu0
    unfold HttpClient.backoffDelay
    linarith
  · intro hpos
    unfold HttpClient.backoffDelay
    have := mul_lt_mul_of_pos_left hu1 hpos
    nlinarith

/-- C7 (witness): the amended theorem at the default configuration
(jitter 1/4), attempt 0, draw 1/2: delay = 1000 + 1000·(1/4)·(1/2) = 1125,
which lies in [1000, 1250). -/
theorem c7_witness :
    HttpClient.backoffDelay (defaultRetryConfig 3) 0 (1/2) = 1125 ∧
    HttpClient.backoffBase (defaultRetryConfig 3) 0
      ≤ HttpClient.backoffDelay (defaultRetryConfig 3) 0 (1/2) ∧
    HttpClient.backoffDelay (defaultRetryConfig 3) 0 (1/2)
      < HttpClient.backoffBase (defaultRetryConfig 3) 0
        * (1 + (defaultRetryConfig 3).jitter) := by
  have h := c7_amended (defaultRetryConfig 3) 0 (1/2)
    (by norm_num [defaultRetryConfig]) (by norm_num [defaultRetryConfig])
    (by norm_num [defaultRetryConfig]) (by norm_num [defaultRetryConfig])
    (by norm_num) (by norm_num)
  refine ⟨?_, h.2.2.1, h.2.2.2 ?_⟩
  · norm_num [HttpClient.backoffDelay, HttpClient.backoffBase, defaultRetryConfig]
  · norm_num [HttpClient.backoffBase, defaultRetryConfig]

/-- C9: custom headers are spread over the defaults, so a caller-supplied
`Authorization`, `Content-Type` or `Accept` header silently replaces the
corresponding SDK default (including the Bearer API-key header, which is
only used when no custom `Authorization` is given); `X-Idempotency-Key` is
attached exactly when the supplied idempotency key is a non-empty string,
and an empty-string key is dropped. -/
theorem c9_build_headers (apiKey : String) (custom : String → Option String)
    (idem : Option String) :
    (∀ v, custom "Authorization" = some v →
      HttpClient.buildHeaders apiKey custom idem "Authorization" = some v) ∧
    (∀ v, custom "Content-Type" = some v →
      HttpClient.buildHeaders apiKey custom idem "Content-Type" = some v) ∧
    (∀ v, custom "Accept" = some v →
      HttpClient.buildHeaders apiKey custom idem "Accept" = some v) ∧
    (custom "Authorization" = none →
      HttpClient.buildHeaders apiKey custom idem "Authorization"
        = some ("Bearer " ++ apiKey)) ∧
    (∀ s, idem = some s → s ≠ "" →
      HttpClient.buildHeaders apiKey custom idem "X-Idempotency-Key" = some s) ∧
    (custom "X-Idempotency-Key" = none → (idem = none ∨ idem = some "") →
      HttpClient.buildHeaders apiKey custom idem "X-Idempotency-Key" = none) := by
  refine ⟨?_, ?_, ?_, ?_, ?_, ?_⟩
  · intro v hv
    simp [HttpClient.buildHeaders, hv]
  · intro v hv
    simp [HttpClient.buildHeaders, hv]
  · intro v hv
    simp [HttpClient.buildHeaders, hv]
  · intro hv
    simp [HttpClient.buildHeaders, hv]
  · intro s hs hne
    simp [HttpClient.buildHeaders, hs, strTruthy, hne]
  · intro hc hidem
    rcases hidem with h | h <;> simp [HttpClient.buildHeaders, hc, h, strTruthy]

/-- C9 (witness): with a custom `Authorization: Bearer custom` header and an
empty-string idempotency key, the custom value wins and no
`X-Idempotency-Key` header is attached. -/
theorem c9_witness :
    HttpClient.buildHeaders "sk_test" customAuthHeaders (some "") "Authorization"
      = some "Bearer custom" ∧
    HttpClient.buildHeaders "sk_test" customAuthHeaders (some "") "X-Idempotency-Key"
      = none := by
  have h := c9_build_headers "sk_test" customAuthHeaders (some "")
  exact ⟨h.1 "Bearer custom" (by decide), h.2.2.2.2.2 (by decide) (Or.inr rfl)⟩

/-- C5: on a single attempt, a caller-initiated abort — whether the signal
was already aborted before the attempt started or fired while the fetch was
in flight — produces a `NetworkError` whose message indicates the abort
("Request aborted" resp. "Request aborted by user"), while the internal
deadline firing alone produces a `TimeoutError` whose message carries the
configured timeout value; the two kinds are distinct constructors, so the
two cancellation sources are always distinguishable. -/
theorem c5_cancellation (timeoutMs : Nat) (already : Bool)
    (out : HttpClient.FetchOutcome) :
    (already = true →
      HttpClient.executeRequest timeoutMs already out
        = .error (.network "Request aborted")) ∧
    (already = false → out = .abortError true →
      HttpClient.executeRequest timeoutMs already out
        = .error (.network "Request aborted by user")) ∧
    (already = false → out = .abortError false →
      HttpClient.executeRequest timeoutMs already out
        = .error (.timeout ("Request timed out after " ++ toString timeoutMs ++ "ms"))) ∧
    (∀ m m', SdkError.network m ≠ SdkError.timeout m') := by
  refine ⟨?_, ?_, ?_, ?_⟩
  · intro h
    simp [HttpClient.executeRequest, h]
  · intro h hout
    simp [HttpClient.executeRequest, h, hout]
  · intro h hout
    simp [HttpClient.executeRequest, h, hout]
  · intro m m' h
    exact SdkError.noConfusion h

/-- C5 (witness): with a 30000 ms timeout, no prior user abort and an
`AbortError` with the user signal not aborted, the outcome is the timeout
error carrying the configured value. -/
theorem c5_witness :
    HttpClient.executeRequest 30000 false (.abortError false)
      = .error (.timeout "Request timed out after 30000ms") := by
  have h := (c5_cancellation 30000 false (.abortError false)).2.2.1 rfl rfl
  rw [h]
  rfl

/-- Helper for the retry gate: an `onRetry` hook event is only ever emitted
for an attempt index strictly below `maxRetries`, because the loop guards
the retry continuation with `attempt < maxRetries && shouldRetry(error)`. -/
theorem onRetry_event_lt_maxRetries {T : Type} (mr : Nat) (sr : SdkError → Bool)
    (beh : Nat → HttpClient.AttemptBehavior T) :
    ∀ fuel attempt last j,
      HttpClient.HookEvent.onRetry j
          ∈ (HttpClient.requestGo mr sr beh fuel attempt last).events →
      j < mr := by
  intro fuel
  induction fuel with
  | zero =>
    intro attempt last j h
    simp [HttpClient.requestGo] at h
  | succ n ih =>
    intro attempt last j h
    rw [HttpClient.requestGo] at h
    split at h
    · split at h
      · split at h
        · rename_i hgate
          simp only [List.mem_cons] at h
          rcases h with h | h | h | h
          · exact absurd h (by simp)
          · exact absurd h (by simp)
          · cases h
            exact hgate.1
          · exact ih _ _ _ h
        · simp at h
      · simp at h
      · split at h
        · rename_i hgate
          simp only [List.mem_cons] at h
          rcases h with h | h | h | h
          · exact absurd h (by simp)
          · exact absurd h (by simp)
          · cases h
            exact hgate.1
          · exact ih _ _ _ h
        · simp at h
    · simp at h

/-- C3: `shouldRetry` returns false for the four client-error kinds and for
anything outside the taxonomy's retry-relevant kinds (generic API errors
and plain JS errors), true for every rate-limit error, membership of the
status code in the resolved `retryableStatuses` for server errors (whose
status code — always ≥ 500 as the classifier constructs them — is nonzero,
satisfying the JS truthiness guard), and the two config flags for
network/timeout errors; and the orchestrator performs a retry only when the
zero-based attempt index is strictly below `maxRetries`, witnessed by the
fact that an `onRetry` event can only carry such an index. -/
theorem c3_should_retry (cfg : RetryConfig) :
    (∀ m rid, HttpClient.shouldRetry cfg (.authentication m rid) = false) ∧
    (∀ m errs rid, HttpClient.shouldRetry cfg (.validation m errs rid) = false) ∧
    (∀ m rt ri rid, HttpClient.shouldRetry cfg (.notFound m rt ri rid) = false) ∧
    (∀ m rid, HttpClient.shouldRetry cfg (.conflict m rid) = false) ∧
    (∀ m ra rid info, HttpClient.shouldRetry cfg (.rateLimit m ra rid info) = true) ∧
    (∀ m s rid, s ≠ 0 →
      HttpClient.shouldRetry cfg (.server m s rid)
        = cfg.retryableStatuses.contains s) ∧
    (∀ m, HttpClient.shouldRetry cfg (.network m) = cfg.retryOnNetworkError) ∧
    (∀ m, HttpClient.shouldRetry cfg (.timeout m) = cfg.retryOnTimeout) ∧
    (∀ m c sc d rid, HttpClient.shouldRetry cfg (.base m c sc d rid) = false) ∧
    (∀ nm m, HttpClient.shouldRetry cfg (.jsError nm m) = false) ∧
    (∀ (T : Type) (mr : Nat) (sr : SdkError → Bool)
        (beh : Nat → HttpClient.AttemptBehavior T) (fuel attempt : Nat)
        (last : Option SdkError) (j : Nat),
      HttpClient.HookEvent.onRetry j
          ∈ (HttpClient.requestGo mr sr beh fuel attempt last).events →
      j < mr) := by
  refine ⟨fun m rid => rfl, fun m errs rid => rfl, fun m rt ri rid => rfl,
    fun m rid => rfl, fun m ra rid info => rfl, ?_, fun m => rfl, fun m => rfl,
    fun m c sc d rid => rfl, fun nm m => rfl, ?_⟩
  · intro m s rid hs
    simp [HttpClient.shouldRetry, hs]
  · intro T mr sr beh fuel attempt last j h
    exact onRetry_event_lt_maxRetries mr sr beh fuel attempt last j h

/-- C3 (witness): at the default configuration, a 500 `ServerError` is
judged retryable exactly as membership of 500 in the default status set. -/
theorem c3_witness :
    HttpClient.shouldRetry (defaultRetryConfig 3) (.server "boom" 500 none)
      = (defaultRetryConfig 3).retryableStatuses.contains 500 ∧
    HttpClient.shouldRetry (defaultRetryConfig 3) (.server "boom" 500 none) = true :=
  ⟨(c3_should_retry (defaultRetryConfig 3)).2.2.2.2.2.1 "boom" 500 none (by decide),
    by decide⟩

/-- C1: for every non-2xx response the classifier throws an error whose kind
is determined exactly by the status — 401 authentication; 400/422 validation
carrying the payload's `errors` list; 404 not-found; 409 conflict; 429
rate-limit carrying `retryAfter` parsed from the `retry-after` header (when
present and non-empty) together with the extracted `RateLimitInfo`; any
other status ≥ 500 a server error carrying that actual status; and any
remaining non-2xx status the generic API error with code `api_error`
carrying the status and raw payload.  Every constructed error carries the
request id taken from the `x-request-id` header. -/
theorem c1_status_mapping (r : HttpResponse)
    (hne : ¬(200 ≤ r.status ∧ r.status ≤ 299)) :
    (r.status = 401 →
      HttpClient.handleResponse r
        = .error (.authentication (HttpClient.classifiedMessage r)
            (r.headers "x-request-id"))) ∧
    (r.status = 400 ∨ r.status = 422 →
      HttpClient.handleResponse r
        = .error (.validation (HttpClient.classifiedMessage r)
            (HttpClient.errorDataOf r).errors (r.headers "x-request-id"))) ∧
    (r.status = 404 →
      HttpClient.handleResponse r
        = .error (.notFound (HttpClient.classifiedMessage r) none none
            (r.headers "x-request-id"))) ∧
    (r.status = 409 →
      HttpClient.handleResponse r
        = .error (.conflict (HttpClient.classifiedMessage r)
            (r.headers "x-request-id"))) ∧
    (r.status = 429 →
      HttpClient.handleResponse r
        = .error (.rateLimit (HttpClient.classifiedMessage r)
            ((strTruthy (r.headers "retry-after")).map parseIntJS)
            (r.headers "x-request-id")
            (HttpClient.extractRateLimitInfo r.headers))) ∧
    (500 ≤ r.status →
      HttpClient.handleResponse r
        = .error (.server (HttpClient.classifiedMessage r) r.status
            (r.headers "x-request-id"))) ∧
    (r.status ≠ 400 → r.status ≠ 401 → r.status ≠ 404 → r.status ≠ 409 →
      r.status ≠ 422 → r.status ≠ 429 → r.status < 500 →
      HttpClient.handleResponse r
        = .error (.base (HttpClient.classifiedMessage r) "api_error"
            (some r.status) (some (HttpClient.errorDataOf r))
            (r.headers "x-request-id"))) := by
  refine ⟨?_, ?_, ?_, ?_, ?_, ?_, ?_⟩
  · intro h
    simp [HttpClient.handleResponse, h]
  · intro h
    rcases h with h | h <;> simp [HttpClient.handleResponse, h]
  · intro h
    simp [HttpClient.handleResponse, h]
  · intro h
    simp [HttpClient.handleResponse, h]
  · intro h
    simp [HttpClient.handleResponse, h]
  · intro h
    have h400 : r.status ≠ 400 := by omega
    have h401 : r.status ≠ 401 := by omega
    have h404 : r.status ≠ 404 := by omega
    have h409 : r.status ≠ 409 := by omega
    have h422 : r.status ≠ 422 := by omega
    have h429 : r.status ≠ 429 := by omega
    simp [HttpClient.handleResponse, hne, h, h400, h401, h404, h409, h422, h429]
  · intro h400 h401 h404 h409 h422 h429 hlt
    have h500 : ¬(500 ≤ r.status) := by omega
    simp [HttpClient.handleResponse, hne, h400, h401, h404, h409, h422, h429, h500]

/-- C1 (witness): a concrete 404 response with a request id maps to the
not-found error carrying the status text as message and that request id. -/
theorem c1_witness :
    HttpClient.handleResponse notFoundResponse
      = .error (.notFound "Not Found" none none (some "req_1")) := by
  have h := (c1_status_mapping notFoundResponse (by decide)).2.2.1 rfl
  rw [h]
  rfl

/-- Helper: with a pure transport behavior, the number of transport
invocations performed by the loop from attempt `attempt` on equals the
length of the run of retry-eligible failures starting there, plus one for
the stopping attempt, capped by the remaining attempt budget
`maxRetries + 1 - attempt`. -/
theorem requestGo_calls {T : Type} (mr : Nat) (sr : SdkError → Bool)
    (tr : Nat → Except SdkError T) :
    ∀ fuel attempt last, attempt ≤ mr → mr + 1 - attempt ≤ fuel →
      (HttpClient.requestGo mr sr (HttpClient.transportBeh tr) fuel attempt last).calls
        = min (HttpClient.leadRetry sr tr attempt (mr + 1 - attempt) + 1)
            (mr + 1 - attempt) := by
  intro fuel
  induction fuel with
  | zero =>
    intro attempt last h1 h2
    omega
  | succ n ih =>
    intro attempt last h1 h2
    have hm : mr + 1 - attempt = (mr - attempt) + 1 := by omega
    rw [HttpClient.requestGo, if_pos h1]
    cases htr : tr attempt with
    | ok t =>
      simp only [HttpClient.transportBeh, htr]
      simp [hm, HttpClient.leadRetry, htr]
    | error e =>
      simp only [HttpClient.transportBeh, htr]
      by_cases hsr : sr e = true
      · by_cases hlt : attempt < mr
        · rw [if_pos ⟨hlt, hsr⟩]
          simp only
          rw [ih (attempt + 1) (some e) (by omega) (by omega)]
          have hm2 : mr + 1 - (attempt + 1) = mr - attempt := by omega
          rw [hm2, hm]
          simp [HttpClient.leadRetry, htr, hsr]
          omega
        · rw [if_neg (fun hc => hlt hc.1)]
          have ha : attempt = mr := by omega
          subst ha
          simp [hm, HttpClient.leadRetry, htr, hsr]
      · rw [if_neg (fun hc => hsr hc.2)]
        simp [hm, HttpClient.leadRetry, htr, hsr]

/-- Helper: if the `d` attempts starting at `start` all fail retryably and
attempt `start + d` is terminal (success or non-retryable failure), the
retryable-run length within any window of size `m` is `min d m`. -/
theorem leadRetry_eq_min {T : Type} (sr : SdkError → Bool)
    (tr : Nat → Except SdkError T) :
    ∀ d start m,
      (∀ j, j < d → ∃ e, tr (start + j) = .error e ∧ sr e = true) →
      ((∃ t, tr (start + d) = .ok t) ∨
        (∃ e, tr (start + d) = .error e ∧ sr e = false)) →
      HttpClient.leadRetry sr tr start m = min d m := by
  intro d
  induction d with
  | zero =>
    intro start m hpre hterm
    cases m with
    | zero => simp [HttpClient.leadRetry]
    | succ m' =>
      rcases hterm with ⟨t, ht⟩ | ⟨e, he, hsr⟩
      · rw [Nat.add_zero] at ht
        simp [HttpClient.leadRetry, ht]
      · rw [Nat.add_zero] at he
        simp [HttpClient.leadRetry, he, hsr]
  | succ d' ih =>
    intro start m hpre hterm
    cases m with
    | zero => simp [HttpClient.leadRetry]
    | succ m' =>
      obtain ⟨e, he, hsr⟩ := hpre 0 (by omega)
      rw [Nat.add_zero] at he
      have hpre' : ∀ j, j < d' → ∃ e, tr (start + 1 + j) = .error e ∧ sr e = true := by
        intro j hj
        have h := hpre (j + 1) (by omega)
        rwa [show start + (j + 1) = start + 1 + j by omega] at h
      have hterm' : (∃ t, tr (start + 1 + d') = .ok t) ∨
          (∃ e, tr (start + 1 + d') = .error e ∧ sr e = false) := by
        rwa [show start + 1 + d' = start + (d' + 1) by omega]
      have hrec := ih (start + 1) m' hpre' hterm'
      simp [HttpClient.leadRetry, he, hsr, hrec]
      omega

/-- Helper: if every attempt in the window fails retryably, the
retryable-run length saturates the window. -/
theorem leadRetry_all {T : Type} (sr : SdkError → Bool)
    (tr : Nat → Except SdkError T) :
    ∀ m start,
      (∀ j, j < m → ∃ e, tr (start + j) = .error e ∧ sr e = true) →
      HttpClient.leadRetry sr tr start m = m := by
  intro m
  induction m with
  | zero =>
    intro start h
    simp [HttpClient.leadRetry]
  | succ m' ih =>
    intro start h
    obtain ⟨e, he, hsr⟩ := h 0 (by omega)
    rw [Nat.add_zero] at he
    have h' : ∀ j, j < m' → ∃ e, tr (start + 1 + j) = .error e ∧ sr e = true := by
      intro j hj
      have hh := h (j + 1) (by omega)
      rwa [show start + (j + 1) = start + 1 + j by omega] at hh
    simp [HttpClient.leadRetry, he, hsr, ih (start + 1) h']

/-- Helper: if the attempts before relative offset `d` all fail retryably
and attempt `attempt + d` is terminal, the loop's outcome is exactly that
attempt's result — the returned value on success, or that error rethrown on
a non-retryable failure. -/
theorem requestGo_outcome_terminal {T : Type} (mr : Nat) (sr : SdkError → Bool)
    (tr : Nat → Except SdkError T) :
    ∀ fuel attempt last d, attempt + d ≤ mr → mr + 1 - attempt ≤ fuel →
      (∀ j, j < d → ∃ e, tr (attempt + j) = .error e ∧ sr e = true) →
      ((∀ t, tr (attempt + d) = .ok t →
          (HttpClient.requestGo mr sr (HttpClient.transportBeh tr)
              fuel attempt last).outcome = .value t) ∧
        (∀ e, tr (attempt + d) = .error e → sr e = false →
          (HttpClient.requestGo mr sr (HttpClient.transportBeh tr)
              fuel attempt last).outcome = .thrown e)) := by
  intro fuel
  induction fuel with
  | zero =>
    intro attempt last d h1 h2 hpre
    omega
  | succ n ih =>
    intro attempt last d h1 h2 hpre
    have hle : attempt ≤ mr := by omega
    rw [HttpClient.requestGo, if_pos hle]
    cases d with
    | zero =>
      constructor
      · intro t ht
        rw [Nat.add_zero] at ht
        simp [HttpClient.transportBeh, ht]
      · intro e he hsr
        rw [Nat.add_zero] at he
        simp only [HttpClient.transportBeh, he]
        rw [if_neg (fun hc => by rw [hsr] at hc; exact Bool.false_ne_true hc.2)]
    | succ d' =>
      obtain ⟨e, he, hsr⟩ := hpre 0 (by omega)
      rw [Nat.add_zero] at he
      have hlt : attempt < mr := by omega
      have hpre' : ∀ j, j < d' → ∃ e, tr (attempt + 1 + j) = .error e ∧ sr e = true := by
        intro j hj
        have h := hpre (j + 1) (by omega)
        rwa [show attempt + (j + 1) = attempt + 1 + j by omega] at h
      have ih' := ih (attempt + 1) (some e) d' (by omega) (by omega) hpre'
      simp only [HttpClient.transportBeh, he]
      rw [if_pos ⟨hlt, hsr⟩]
      constructor
      · intro t ht
        rw [show attempt + (d' + 1) = attempt + 1 + d' by omega] at ht
        exact ih'.1 t ht
      · intro e' he' hsr'
        rw [show attempt + (d' + 1) = attempt + 1 + d' by omega] at he'
        exact ih'.2 e' he' hsr'

/-- Helper: if every attempt within the budget fails retryably, the loop
exhausts the budget and rethrows the error of the last attempt
(attempt `maxRetries`). -/
theorem requestGo_outcome_exhaust {T : Type} (mr : Nat) (sr : SdkError → Bool)
    (tr : Nat → Except SdkError T) :
    ∀ fuel attempt last, attempt ≤ mr → mr + 1 - attempt ≤ fuel →
      (∀ i, attempt ≤ i → i ≤ mr → ∃ e, tr i = .error e ∧ sr e = true) →
      ∀ e, tr mr = .error e →
        (HttpClient.requestGo mr sr (HttpClient.transportBeh tr)
            fuel attempt last).outcome = .thrown e := by
  intro fuel
  induction fuel with
  | zero =>
    intro attempt last h1 h2
    omega
  | succ n ih =>
    intro attempt last h1 h2 hall e hfin
    obtain ⟨e', he', hsr'⟩ := hall attempt le_rfl h1
    rw [HttpClient.requestGo, if_pos h1]
    simp only [HttpClient.transportBeh, he']
    by_cases hlt : attempt < mr
    · rw [if_pos ⟨hlt, hsr'⟩]
      exact ih (attempt + 1) (some e') (by omega) (by omega)
        (fun i hi1 hi2 => hall i (by omega) hi2) e hfin
    · have ha : attempt = mr := by omega
      subst ha
      rw [he'] at hfin
      injection hfin with h
      subst h
      rw [if_neg (fun hc => hlt hc.1)]

/-- Helper: from any reachable loop state with adequate fuel, the loop
terminates inside its body with a returned value or a thrown error — it
never reaches the statement after the loop and never exhausts its fuel. -/
theorem requestGo_stops {T : Type} (mr : Nat) (sr : SdkError → Bool)
    (beh : Nat → HttpClient.AttemptBehavior T) :
    ∀ fuel attempt last, attempt ≤ mr → mr + 1 - attempt ≤ fuel →
      (∃ t, (HttpClient.requestGo mr sr beh fuel attempt last).outcome = .value t) ∨
      (∃ e, (HttpClient.requestGo mr sr beh fuel attempt last).outcome = .thrown e) := by
  intro fuel
  induction fuel with
  | zero =>
    intro attempt last h1 h2
    omega
  | succ n ih =>
    intro attempt last h1 h2
    rw [HttpClient.requestGo, if_pos h1]
    cases hbeh : beh attempt with
    | hookThrows e =>
      by_cases hg : attempt < mr ∧ sr e = true
      · simp only [if_pos hg]
        simpa using ih (attempt + 1) (some e) (by omega) (by omega)
      · simp only [if_neg hg]
        exact Or.inr ⟨e, rfl⟩
    | transport res =>
      cases res with
      | ok t => exact Or.inl ⟨t, rfl⟩
      | error e =>
        by_cases hg : attempt < mr ∧ sr e = true
        · simp only [if_pos hg]
          simpa using ih (attempt + 1) (some e) (by omega) (by omega)
        · simp only [if_neg hg]
          exact Or.inr ⟨e, rfl⟩

/-- Helper: the retry policy never retries a client-caused error. -/
theorem shouldRetry_client_false (cfg : RetryConfig) (e : SdkError)
    (h : HttpClient.isClientError e = true) :
    HttpClient.shouldRetry cfg e = false := by
  cases e <;> simp_all [HttpClient.isClientError, HttpClient.shouldRetry]

/-- C2: with resolved `maxRetries = N`, the transport is invoked exactly
`min k (N+1)` times, where `k` is the 1-based index of the first attempt
that succeeds or fails non-retryably; a client-error outcome
(authentication / validation / not-found / conflict) on the first attempt
means exactly one invocation regardless of `N` and that error thrown; a
transport that fails retryably on every attempt within the budget means
exactly `N+1` invocations with the last attempt's error thrown. -/
theorem c2_transport_invocations {T : Type} (cfg : RetryConfig) (N : Nat)
    (tr : Nat → Except SdkError T) :
    (∀ k, 1 ≤ k →
      (∀ j, j + 1 < k →
        ∃ e, tr j = .error e ∧ HttpClient.shouldRetry cfg e = true) →
      ((∃ t, tr (k - 1) = .ok t) ∨
        (∃ e, tr (k - 1) = .error e ∧ HttpClient.shouldRetry cfg e = false)) →
      (HttpClient.request N (HttpClient.shouldRetry cfg)
          (HttpClient.transportBeh tr)).calls = min k (N + 1)) ∧
    (∀ e, tr 0 = .error e → HttpClient.isClientError e = true →
      (HttpClient.request N (HttpClient.shouldRetry cfg)
          (HttpClient.transportBeh tr)).calls = 1 ∧
      (HttpClient.request N (HttpClient.shouldRetry cfg)
          (HttpClient.transportBeh tr)).outcome = .thrown e) ∧
    ((∀ i, i ≤ N →
        ∃ e, tr i = .error e ∧ HttpClient.shouldRetry cfg e = true) →
      (HttpClient.request N (HttpClient.shouldRetry cfg)
          (HttpClient.transportBeh tr)).calls = N + 1 ∧
      ∀ e, tr N = .error e →
        (HttpClient.request N (HttpClient.shouldRetry cfg)
            (HttpClient.transportBeh tr)).outcome = .thrown e) := by
  have hcalls : (HttpClient.request N (HttpClient.shouldRetry cfg)
      (HttpClient.transportBeh tr)).calls
        = min (HttpClient.leadRetry (HttpClient.shouldRetry cfg) tr 0 (N + 1) + 1)
          (N + 1) :=
    requestGo_calls N (HttpClient.shouldRetry cfg) tr (N + 2) 0 none
      (by omega) (by omega)
  have part1 : ∀ k, 1 ≤ k →
      (∀ j, j + 1 < k →
        ∃ e, tr j = .error e ∧ HttpClient.shouldRetry cfg e = true) →
      ((∃ t, tr (k - 1) = .ok t) ∨
        (∃ e, tr (k - 1) = .error e ∧ HttpClient.shouldRetry cfg e = false)) →
      (HttpClient.request N (HttpClient.shouldRetry cfg)
          (HttpClient.transportBeh tr)).calls = min k (N + 1) := by
    intro k hk hpre hterm
    have hpre' : ∀ j, j < k - 1 →
        ∃ e, tr (0 + j) = .error e ∧ HttpClient.shouldRetry cfg e = true := by
      intro j hj
      simpa using hpre j (by omega)
    have hterm' : (∃ t, tr (0 + (k - 1)) = .ok t) ∨
        (∃ e, tr (0 + (k - 1)) = .error e ∧ HttpClient.shouldRetry cfg e = false) := by
      simpa using hterm
    have hlead := leadRetry_eq_min (HttpClient.shouldRetry cfg) tr (k - 1) 0 (N + 1)
      hpre' hterm'
    rw [hcalls, hlead]
    omega
  refine ⟨part1, ?_, ?_⟩
  · intro e h0 hce
    have hsr : HttpClient.shouldRetry cfg e = false :=
      shouldRetry_client_false cfg e hce
    constructor
    · have h1 := part1 1 le_rfl (fun j hj => absurd hj (by omega))
        (Or.inr ⟨e, h0, hsr⟩)
      rw [h1]
      omega
    · have hterm := requestGo_outcome_terminal N (HttpClient.shouldRetry cfg) tr
        (N + 2) 0 none 0 (by omega) (by omega) (fun j hj => absurd hj (by omega))
      exact hterm.2 e (by simpa using h0) hsr
  · intro hall
    constructor
    · have hlead := leadRetry_all (HttpClient.shouldRetry cfg) tr (N + 1) 0
        (fun j hj => by simpa using hall j (by omega))
      rw [hcalls, hlead]
      omega
    · intro e hfin
      exact requestGo_outcome_exhaust N (HttpClient.shouldRetry cfg) tr
        (N + 2) 0 none (by omega) (by omega)
        (fun i _ hi2 => hall i hi2) e hfin

/-- C2 (witness): with `maxRetries = 2` and a transport that always fails
with a retryable 500 server error, the transport runs exactly 3 times and
the final outcome is that error thrown. -/
theorem c2_witness :
    (HttpClient.request 2 (HttpClient.shouldRetry (defaultRetryConfig 2))
        (HttpClient.transportBeh alwaysServer500)).calls = 2 + 1 ∧
    (HttpClient.request 2 (HttpClient.shouldRetry (defaultRetryConfig 2))
        (HttpClient.transportBeh alwaysServer500)).outcome
      = .thrown (.server "boom" 500 none) := by
  have h := (c2_transport_invocations (defaultRetryConfig 2) 2 alwaysServer500).2.2
    (fun i _ => ⟨.server "boom" 500 none, rfl, by decide⟩)
  exact ⟨h.1, h.2 _ rfl⟩

/-- C10: for every `maxRetries`, retry predicate, and per-attempt behavior
(hook throws included), the `request` loop terminates inside the loop body
with a returned value or a thrown error: the loop-condition check
`attempt <= maxRetries` never fails, so the trailing
`throw lastError || new NetworkError('Request failed after retries')`
statement after the loop is unreachable. -/
theorem c10_trailing_throw_unreachable {T : Type} (mr : Nat)
    (sr : SdkError → Bool) (beh : Nat → HttpClient.AttemptBehavior T) :
    (∃ t, (HttpClient.request mr sr beh).outcome = .value t) ∨
    (∃ e, (HttpClient.request mr sr beh).outcome = .thrown e) :=
  requestGo_stops mr sr beh (mr + 2) 0 none (by omega) (by omega)

/-- C6 (counterexample): the `onRequest` hook call sits *inside* the loop's
try block, so a hook that throws is caught like an attempt failure: with the
default configuration and a hook that throws a `NetworkError` on attempt 0,
the `onError` hook fires on that exception and the call is retried —
`onRequest` fires again on attempt 1 — contradicting "propagates uncaught:
not caught, not routed through onError, not evaluated for retry". -/
theorem c6_counterexample :
    HttpClient.HookEvent.onError 0 ∈
      (HttpClient.request 3 (HttpClient.shouldRetry (defaultRetryConfig 3))
          hookThrowsNetworkBeh).events ∧
    HttpClient.HookEvent.onRequest 1 ∈
      (HttpClient.request 3 (HttpClient.shouldRetry (defaultRetryConfig 3))
          hookThrowsNetworkBeh).events := by
  decide

/-- C6 (amended): an exception thrown by the `onRequest` hook is caught by
the per-attempt catch: the `onError` hook is invoked on it and it goes
through the normal retry evaluation.  When `shouldRetry` rejects it (any
generic exception), the call ends at once with exactly that exception
rethrown, the transport never invoked and only
`onRequest`/`onError` fired; when `shouldRetry` accepts it and retry budget
remains, the attempt is retried (`onRetry` fires). -/
theorem c6_amended {T : Type} (mr : Nat) (sr : SdkError → Bool)
    (beh : Nat → HttpClient.AttemptBehavior T) (e : SdkError)
    (h : beh 0 = .hookThrows e) :
    (sr e = false →
      HttpClient.request mr sr beh
        = ⟨.thrown e, 0, [.onRequest 0, .onError 0]⟩) ∧
    (sr e = true → 0 < mr →
      HttpClient.HookEvent.onRetry 0 ∈ (HttpClient.request mr sr beh).events) := by
  constructor
  · intro hsr
    unfold HttpClient.request
    rw [HttpClient.requestGo, if_pos (by omega : 0 ≤ mr)]
    simp only [h]
    rw [if_neg (fun hc => by rw [hsr] at hc; exact Bool.false_ne_true hc.2)]
  · intro hsr hmr
    unfold HttpClient.request
    rw [HttpClient.requestGo, if_pos (by omega : 0 ≤ mr)]
    simp only [h]
    rw [if_pos ⟨hmr, hsr⟩]
    simp

/-- C6 (witness): a hook throwing a plain JS `Error` (not retryable) on
attempt 0 ends the call at once: that exception is rethrown, the transport
is never invoked, and only `onRequest` and `onError` fire. -/
theorem c6_witness :
    HttpClient.request 3 (HttpClient.shouldRetry (defaultRetryConfig 3))
        hookThrowsPlainBeh
      = ⟨.thrown (.jsError "Error" "hook boom"), 0,
          [.onRequest 0, .onError 0]⟩ :=
  (c6_amended 3 (HttpClient.shouldRetry (defaultRetryConfig 3))
      hookThrowsPlainBeh (.jsError "Error" "hook boom") rfl).1 rfl
